import Mathlib

/-!
Shallow embedding of `crates/wit-component/src/builder.rs`: the
`ComponentBuilder` helper that incrementally encodes a WebAssembly
component while tracking its index spaces and batching consecutive
same-kind items into single sections.

The byte-level encoders of the `wasm_encoder` crate are external
collaborators; their entry payloads are modelled as plain data carried
verbatim (a sealed section is the list of entries fed to its encoder, in
order), since the builder never inspects them.
-/

set_option maxHeartbeats 1000000

namespace WasmTools

/-- Payload of `wasm_encoder::Module` (an already-encoded core module).
The builder never inspects it, so it is kept as abstract data. -/
abbrev Module := List Nat

/-- Payload of `wasm_encoder::ModuleArg`; abstract data to the builder. -/
abbrev ModuleArg := Nat

/-- Payload of `wasm_encoder::CanonicalOption`; abstract data to the builder. -/
abbrev CanonicalOption := Nat

/-- Payload of `wasm_encoder::InstanceType`; abstract data to the builder. -/
abbrev InstanceType := Nat

/-- `wasm_encoder::ExportKind`, the kinds of core-wasm exports. -/
inductive ExportKind
  | Func
  | Table
  | Memory
  | Global
  | Tag
deriving DecidableEq

/-- `wasm_encoder::ComponentExportKind`. `Typ` models the source variant
named `Type` (a Lean keyword). -/
inductive ComponentExportKind
  | Module
  | Func
  | Value
  | Typ
  | Instance
  | Component
deriving DecidableEq

/-- `wasm_encoder::ComponentOuterAliasKind`. `Typ` models the source
variant named `Type`. -/
inductive ComponentOuterAliasKind
  | CoreModule
  | CoreType
  | Typ
  | Component
deriving DecidableEq

/-- `wasm_encoder::ComponentTypeRef`; the constructors model the source
variants `Module`, `Func`, `Value`, `Type`, `Instance`, `Component` in
that order (payloads of `Value` and `Type` kept abstract). -/
inductive ComponentTypeRef
  | moduleTy (i : Nat)
  | funcTy (i : Nat)
  | valueTy (t : Nat)
  | typeTy (b : Nat)
  | instanceTy (i : Nat)
  | componentTy (i : Nat)
deriving DecidableEq

/-- `wasm_encoder::Alias`. The source field named `instance` is rendered
`instanceIdx` (`instance` is a Lean keyword). -/
inductive Alias
  | instanceExport (instanceIdx : Nat) (kind : ComponentExportKind) (name : String)
  | coreInstanceExport (instanceIdx : Nat) (kind : ExportKind) (name : String)
  | outer (count : Nat) (kind : ComponentOuterAliasKind) (index : Nat)
deriving DecidableEq

/-- An entry of `wasm_encoder::InstanceSection`: either
`instantiate(module_index, args)` or `export_items(exports)`. -/
inductive CoreInstanceEntry
  | instantiateE (moduleIndex : Nat) (args : List (String × ModuleArg))
  | exportItemsE (exports : List (String × ExportKind × Nat))
deriving DecidableEq

/-- An entry of `wasm_encoder::ComponentInstanceSection`; the builder only
ever calls `export_items` on it. -/
inductive ComponentInstanceEntry
  | exportItemsE (exports : List (String × ComponentExportKind × Nat))
deriving DecidableEq

/-- An entry of `wasm_encoder::CanonicalFunctionSection`: a `lower` or a
`lift` canonical function. -/
inductive CanonEntry
  | lower (funcIndex : Nat) (options : List CanonicalOption)
  | lift (coreFuncIndex : Nat) (typeIndex : Nat) (options : List CanonicalOption)
deriving DecidableEq

/-- An entry of `wasm_encoder::ComponentExportSection`:
`export(name, url, kind, idx)`. -/
structure ExportEntry where
  name : String
  url : String
  kind : ComponentExportKind
  idx : Nat
deriving DecidableEq

/-- An entry of `wasm_encoder::ComponentImportSection`:
`import(name, url, ty)`. -/
structure ImportEntry where
  name : String
  url : String
  ty : ComponentTypeRef
deriving DecidableEq

/-- An entry of `wasm_encoder::ComponentTypeSection`. `instanceTy` is the
`instance(ty)` call; `definedTy` / `funcTy` stand for the entries started
by `defined_type()` / `function()`, whose contents are written by the
caller through the returned encoder and are opaque to the builder. -/
inductive TypeEntry
  | instanceTy (ty : InstanceType)
  | definedTy
  | funcTy
deriving DecidableEq

/-- A sealed section appended to the output `Component`. `module` is a
`ModuleSection`, `raw` a `wasm_encoder::RawSection` (id and bytes); the
remaining constructors are the seven batchable sections, holding their
entries in the order they were fed to the encoder. -/
inductive Section
  | module (m : Module)
  | raw (id : Nat) (data : List Nat)
  | componentInstances (s : List ComponentInstanceEntry)
  | instances (s : List CoreInstanceEntry)
  | canonicalFunctions (s : List CanonEntry)
  | aliases (s : List Alias)
  | exports (s : List ExportEntry)
  | imports (s : List ImportEntry)
  | types (s : List TypeEntry)
deriving DecidableEq

/-- The `LastSection` enum generated by the `section_accessors!` macro:
either nothing, or the currently open in-progress section of one of the
seven batchable kinds. -/
inductive LastSection
  | none
  | componentInstances (s : List ComponentInstanceEntry)
  | instances (s : List CoreInstanceEntry)
  | canonicalFunctions (s : List CanonEntry)
  | aliases (s : List Alias)
  | exports (s : List ExportEntry)
  | imports (s : List ImportEntry)
  | types (s : List TypeEntry)
deriving DecidableEq

/-- The `ComponentBuilder` struct: the output component (as its list of
sealed sections; byte serialization is `wasm_encoder`'s job), the open
section slot, and the eight index-space counters. The source counters are
`u32`; `inc` uses Rust checked arithmetic (overflow aborts), so every
completing execution is captured by the `Nat` model. -/
structure ComponentBuilder where
  component : List Section
  last_section : LastSection
  core_modules : Nat
  core_funcs : Nat
  core_memories : Nat
  core_tables : Nat
  core_instances : Nat
  funcs : Nat
  instances : Nat
  types : Nat
deriving DecidableEq

/-- `ComponentBuilder::default()`: empty output, no open section, all
counters zero. -/
def defaultBuilder : ComponentBuilder :=
  { component := []
    last_section := .none
    core_modules := 0
    core_funcs := 0
    core_memories := 0
    core_tables := 0
    core_instances := 0
    funcs := 0
    instances := 0
    types := 0 }

/-- `fn inc(idx: &mut u32) -> u32`: returns the old value and the
incremented counter. -/
def inc (idx : Nat) : Nat × Nat := (idx, idx + 1)

/-- The sections appended by sealing a `LastSection`: none if nothing is
open, otherwise exactly the one open section. -/
def sealList : LastSection → List Section
  | .none => []
  | .componentInstances s => [.componentInstances s]
  | .instances s => [.instances s]
  | .canonicalFunctions s => [.canonicalFunctions s]
  | .aliases s => [.aliases s]
  | .exports s => [.exports s]
  | .imports s => [.imports s]
  | .types s => [.types s]

/-- `ComponentBuilder::flush`: writes out the last section into the final
component binary if there is a section specified, otherwise does
nothing. -/
def ComponentBuilder.flush (b : ComponentBuilder) : ComponentBuilder :=
  match b.last_section with
  | .none => b
  | .componentInstances s =>
    { b with component := b.component ++ [.componentInstances s], last_section := .none }
  | .instances s =>
    { b with component := b.component ++ [.instances s], last_section := .none }
  | .canonicalFunctions s =>
    { b with component := b.component ++ [.canonicalFunctions s], last_section := .none }
  | .aliases s =>
    { b with component := b.component ++ [.aliases s], last_section := .none }
  | .exports s =>
    { b with component := b.component ++ [.exports s], last_section := .none }
  | .imports s =>
    { b with component := b.component ++ [.imports s], last_section := .none }
  | .types s =>
    { b with component := b.component ++ [.types s], last_section := .none }

/-- Accessor `component_instances()` followed by appending one entry: if
the open slot already is a `ComponentInstanceSection` the entry is
appended to it, otherwise the slot is flushed and a fresh section holding
just this entry is opened. (The macro's second `match`, whose non-matching
arm is `unreachable!()`, cannot fail after the first.) -/
def ComponentBuilder.addComponentInstance (b : ComponentBuilder)
    (e : ComponentInstanceEntry) : ComponentBuilder :=
  match b.last_section with
  | .componentInstances s => { b with last_section := .componentInstances (s ++ [e]) }
  | _ => { b.flush with last_section := .componentInstances [e] }

/-- Accessor `instances()` followed by appending one entry. -/
def ComponentBuilder.addCoreInstance (b : ComponentBuilder)
    (e : CoreInstanceEntry) : ComponentBuilder :=
  match b.last_section with
  | .instances s => { b with last_section := .instances (s ++ [e]) }
  | _ => { b.flush with last_section := .instances [e] }

/-- Accessor `canonical_functions()` followed by appending one entry. -/
def ComponentBuilder.addCanon (b : ComponentBuilder) (e : CanonEntry) : ComponentBuilder :=
  match b.last_section with
  | .canonicalFunctions s => { b with last_section := .canonicalFunctions (s ++ [e]) }
  | _ => { b.flush with last_section := .canonicalFunctions [e] }

/-- Accessor `aliases()` followed by appending one entry. -/
def ComponentBuilder.addAlias (b : ComponentBuilder) (e : Alias) : ComponentBuilder :=
  match b.last_section with
  | .aliases s => { b with last_section := .aliases (s ++ [e]) }
  | _ => { b.flush with last_section := .aliases [e] }

/-- Accessor `exports()` followed by appending one entry. -/
def ComponentBuilder.addExport (b : ComponentBuilder) (e : ExportEntry) : ComponentBuilder :=
  match b.last_section with
  | .exports s => { b with last_section := .exports (s ++ [e]) }
  | _ => { b.flush with last_section := .exports [e] }

/-- Accessor `imports()` followed by appending one entry. -/
def ComponentBuilder.addImport (b : ComponentBuilder) (e : ImportEntry) : ComponentBuilder :=
  match b.last_section with
  | .imports s => { b with last_section := .imports (s ++ [e]) }
  | _ => { b.flush with last_section := .imports [e] }

/-- Accessor `types()` followed by appending one entry. -/
def ComponentBuilder.addType (b : ComponentBuilder) (e : TypeEntry) : ComponentBuilder :=
  match b.last_section with
  | .types s => { b with last_section := .types (s ++ [e]) }
  | _ => { b.flush with last_section := .types [e] }

/-- `ComponentBuilder::finish`: flush, then `Component::finish()`. The
header/byte finalization is `wasm_encoder`'s; at the section level the
result is the flushed section list. -/
def ComponentBuilder.finish (b : ComponentBuilder) : List Section :=
  b.flush.component

/-- `ComponentBuilder::instantiate`. -/
def ComponentBuilder.instantiate (b : ComponentBuilder) (moduleIndex : Nat)
    (args : List (String × ModuleArg)) : Nat × ComponentBuilder :=
  let b := b.addCoreInstance (.instantiateE moduleIndex args)
  let (ret, c) := inc b.core_instances
  (ret, { b with core_instances := c })

/-- `ComponentBuilder::alias_func`. -/
def ComponentBuilder.alias_func (b : ComponentBuilder) (instanceIdx : Nat)
    (name : String) : Nat × ComponentBuilder :=
  let b := b.addAlias (.instanceExport instanceIdx .Func name)
  let (ret, c) := inc b.funcs
  (ret, { b with funcs := c })

/-- `ComponentBuilder::lower_func`. -/
def ComponentBuilder.lower_func (b : ComponentBuilder) (funcIndex : Nat)
    (options : List CanonicalOption) : Nat × ComponentBuilder :=
  let b := b.addCanon (.lower funcIndex options)
  let (ret, c) := inc b.core_funcs
  (ret, { b with core_funcs := c })

/-- `ComponentBuilder::lift_func`. -/
def ComponentBuilder.lift_func (b : ComponentBuilder) (coreFuncIndex : Nat)
    (typeIndex : Nat) (options : List CanonicalOption) : Nat × ComponentBuilder :=
  let b := b.addCanon (.lift coreFuncIndex typeIndex options)
  let (ret, c) := inc b.funcs
  (ret, { b with funcs := c })

/-- `ComponentBuilder::instantiate_core_exports`. -/
def ComponentBuilder.instantiate_core_exports (b : ComponentBuilder)
    (exports : List (String × ExportKind × Nat)) : Nat × ComponentBuilder :=
  let b := b.addCoreInstance (.exportItemsE exports)
  let (ret, c) := inc b.core_instances
  (ret, { b with core_instances := c })

/-- `ComponentBuilder::instantiate_exports`. -/
def ComponentBuilder.instantiate_exports (b : ComponentBuilder)
    (exports : List (String × ComponentExportKind × Nat)) : Nat × ComponentBuilder :=
  let b := b.addComponentInstance (.exportItemsE exports)
  let (ret, c) := inc b.instances
  (ret, { b with instances := c })

/-- `ComponentBuilder::core_module`: flush, then write the module as its
own immediate `ModuleSection`, then advance the core-module counter. -/
def ComponentBuilder.core_module (b : ComponentBuilder) (m : Module) :
    Nat × ComponentBuilder :=
  let b := b.flush
  let b := { b with component := b.component ++ [Section.module m] }
  let (ret, c) := inc b.core_modules
  (ret, { b with core_modules := c })

/-- `ComponentBuilder::core_module_raw`: flush, then write the raw bytes
as a `RawSection` with id `ComponentSectionId::CoreModule` (= 1). -/
def ComponentBuilder.core_module_raw (b : ComponentBuilder) (bytes : List Nat) :
    Nat × ComponentBuilder :=
  let b := b.flush
  let b := { b with component := b.component ++ [Section.raw 1 bytes] }
  let (ret, c) := inc b.core_modules
  (ret, { b with core_modules := c })

/-- `ComponentBuilder::alias_core_item`: the alias entry is appended to
the alias section first; then the kind is dispatched. `Global` and `Tag`
hit `unreachable!()`: the `.error` constructor carries the builder state
at the moment of that abort. -/
def ComponentBuilder.alias_core_item (b : ComponentBuilder) (instanceIdx : Nat)
    (kind : ExportKind) (name : String) :
    Except ComponentBuilder (Nat × ComponentBuilder) :=
  let b := b.addAlias (.coreInstanceExport instanceIdx kind name)
  match kind with
  | .Func => let (ret, c) := inc b.core_funcs; .ok (ret, { b with core_funcs := c })
  | .Table => let (ret, c) := inc b.core_tables; .ok (ret, { b with core_tables := c })
  | .Memory => let (ret, c) := inc b.core_memories; .ok (ret, { b with core_memories := c })
  | .Global => .error b
  | .Tag => .error b

/-- `ComponentBuilder::export` (named `exportItem` here; `export` is a
Lean keyword): the export entry is appended to the export section first;
then the kind is dispatched. `Component` and `Value` hit
`unimplemented!()`: `.error` carries the state at that abort. -/
def ComponentBuilder.exportItem (b : ComponentBuilder) (name : String) (url : String)
    (kind : ComponentExportKind) (idx : Nat) :
    Except ComponentBuilder (Nat × ComponentBuilder) :=
  let b := b.addExport { name := name, url := url, kind := kind, idx := idx }
  match kind with
  | .Typ => let (ret, c) := inc b.types; .ok (ret, { b with types := c })
  | .Func => let (ret, c) := inc b.funcs; .ok (ret, { b with funcs := c })
  | .Module => let (ret, c) := inc b.core_modules; .ok (ret, { b with core_modules := c })
  | .Instance => let (ret, c) := inc b.instances; .ok (ret, { b with instances := c })
  | .Component => .error b
  | .Value => .error b

/-- `ComponentBuilder::import` (named `importItem` here; the source name
is a Lean keyword): the type reference is dispatched *before* anything is
mutated, so an unsupported reference (`unimplemented!()`) aborts with the
builder untouched; otherwise the counter is advanced and the entry
appended to the import section. -/
def ComponentBuilder.importItem (b : ComponentBuilder) (name : String) (url : String)
    (ty : ComponentTypeRef) : Except ComponentBuilder (Nat × ComponentBuilder) :=
  match ty with
  | .instanceTy i =>
    let (ret, c) := inc b.instances
    let b := { b with instances := c }
    .ok (ret, b.addImport { name := name, url := url, ty := ComponentTypeRef.instanceTy i })
  | .funcTy i =>
    let (ret, c) := inc b.funcs
    let b := { b with funcs := c }
    .ok (ret, b.addImport { name := name, url := url, ty := ComponentTypeRef.funcTy i })
  | _ => .error b

/-- `ComponentBuilder::instance_type`. -/
def ComponentBuilder.instance_type (b : ComponentBuilder) (ty : InstanceType) :
    Nat × ComponentBuilder :=
  let (ret, c) := inc b.types
  let b := { b with types := c }
  (ret, b.addType (.instanceTy ty))

/-- `ComponentBuilder::defined_type`; the returned encoder through which
the caller writes the type's content is opaque to the builder. -/
def ComponentBuilder.defined_type (b : ComponentBuilder) : Nat × ComponentBuilder :=
  let (ret, c) := inc b.types
  let b := { b with types := c }
  (ret, b.addType .definedTy)

/-- `ComponentBuilder::function_type`; same encoder elision as
`defined_type`. -/
def ComponentBuilder.function_type (b : ComponentBuilder) : Nat × ComponentBuilder :=
  let (ret, c) := inc b.types
  let b := { b with types := c }
  (ret, b.addType .funcTy)

/-- `ComponentBuilder::alias_type_export`. -/
def ComponentBuilder.alias_type_export (b : ComponentBuilder) (instanceIdx : Nat)
    (name : String) : Nat × ComponentBuilder :=
  let b := b.addAlias (.instanceExport instanceIdx .Typ name)
  let (ret, c) := inc b.types
  (ret, { b with types := c })

/-- `ComponentBuilder::alias_outer_type`. -/
def ComponentBuilder.alias_outer_type (b : ComponentBuilder) (count : Nat)
    (index : Nat) : Nat × ComponentBuilder :=
  let b := b.addAlias (.outer count .Typ index)
  let (ret, c) := inc b.types
  (ret, { b with types := c })

/-! ## Trace semantics and observers

The definitions below do not embed further source code; they package the
operations above into a call-trace semantics and read off observable
parts of the builder state, so that the specification's trace-level
properties can be stated. -/

/-- The eight index spaces of the builder. -/
inductive Space
  | coreModules
  | coreFuncs
  | coreMemories
  | coreTables
  | coreInstances
  | funcs
  | instances
  | types
deriving DecidableEq

/-- The current value of an index-space counter. -/
def counter (b : ComponentBuilder) : Space → Nat
  | .coreModules => b.core_modules
  | .coreFuncs => b.core_funcs
  | .coreMemories => b.core_memories
  | .coreTables => b.core_tables
  | .coreInstances => b.core_instances
  | .funcs => b.funcs
  | .instances => b.instances
  | .types => b.types

/-- One call of the public `ComponentBuilder` API, with its arguments.
`exportItem` / `importItem` render the source methods `export` /
`import`; `flushOp` is an explicit `flush` call. -/
inductive Op
  | instantiate (moduleIndex : Nat) (args : List (String × ModuleArg))
  | alias_func (instanceIdx : Nat) (name : String)
  | lower_func (funcIndex : Nat) (options : List CanonicalOption)
  | lift_func (coreFuncIndex : Nat) (typeIndex : Nat) (options : List CanonicalOption)
  | instantiate_core_exports (exports : List (String × ExportKind × Nat))
  | instantiate_exports (exports : List (String × ComponentExportKind × Nat))
  | core_module (m : Module)
  | core_module_raw (bytes : List Nat)
  | alias_core_item (instanceIdx : Nat) (kind : ExportKind) (name : String)
  | exportItem (name : String) (url : String) (kind : ComponentExportKind) (idx : Nat)
  | importItem (name : String) (url : String) (ty : ComponentTypeRef)
  | instance_type (ty : InstanceType)
  | defined_type
  | function_type
  | alias_type_export (instanceIdx : Nat) (name : String)
  | alias_outer_type (count : Nat) (index : Nat)
  | flushOp
deriving DecidableEq

/-- Execute one call: `none` when the call panics (`unreachable!()` /
`unimplemented!()`), otherwise the new builder and the returned index
(`none` for `flush`, which returns nothing). -/
def stepOp (b : ComponentBuilder) : Op → Option (ComponentBuilder × Option Nat)
  | .instantiate mi args => let (r, b') := b.instantiate mi args; some (b', some r)
  | .alias_func i n => let (r, b') := b.alias_func i n; some (b', some r)
  | .lower_func f o => let (r, b') := b.lower_func f o; some (b', some r)
  | .lift_func cf t o => let (r, b') := b.lift_func cf t o; some (b', some r)
  | .instantiate_core_exports e => let (r, b') := b.instantiate_core_exports e; some (b', some r)
  | .instantiate_exports e => let (r, b') := b.instantiate_exports e; some (b', some r)
  | .core_module m => let (r, b') := b.core_module m; some (b', some r)
  | .core_module_raw bs => let (r, b') := b.core_module_raw bs; some (b', some r)
  | .alias_core_item i k n =>
    match b.alias_core_item i k n with
    | .ok (r, b') => some (b', some r)
    | .error _ => none
  | .exportItem n u k i =>
    match b.exportItem n u k i with
    | .ok (r, b') => some (b', some r)
    | .error _ => none
  | .importItem n u ty =>
    match b.importItem n u ty with
    | .ok (r, b') => some (b', some r)
    | .error _ => none
  | .instance_type ty => let (r, b') := b.instance_type ty; some (b', some r)
  | .defined_type => let (r, b') := b.defined_type; some (b', some r)
  | .function_type => let (r, b') := b.function_type; some (b', some r)
  | .alias_type_export i n => let (r, b') := b.alias_type_export i n; some (b', some r)
  | .alias_outer_type c i => let (r, b') := b.alias_outer_type c i; some (b', some r)
  | .flushOp => some (b.flush, none)

/-- Execute a call trace; `none` as soon as some call panics. -/
def runOps (b : ComponentBuilder) : List Op → Option ComponentBuilder
  | [] => some b
  | o :: rest =>
    match stepOp b o with
    | some (b', _) => runOps b' rest
    | none => none

/-- Execute a trace from a fresh builder and `finish`. -/
def execTrace (T : List Op) : Option (List Section) :=
  (runOps defaultBuilder T).map ComponentBuilder.finish

/-- The index space a call advances (the mapping of spec table 4.1),
`none` for `flush` and for the unsupported-kind calls, which abort. -/
def touchSpace : Op → Option Space
  | .instantiate _ _ => some .coreInstances
  | .alias_func _ _ => some .funcs
  | .lower_func _ _ => some .coreFuncs
  | .lift_func _ _ _ => some .funcs
  | .instantiate_core_exports _ => some .coreInstances
  | .instantiate_exports _ => some .instances
  | .core_module _ => some .coreModules
  | .core_module_raw _ => some .coreModules
  | .alias_core_item _ k _ =>
    match k with
    | .Func => some .coreFuncs
    | .Table => some .coreTables
    | .Memory => some .coreMemories
    | .Global => none
    | .Tag => none
  | .exportItem _ _ k _ =>
    match k with
    | .Typ => some .types
    | .Func => some .funcs
    | .Module => some .coreModules
    | .Instance => some .instances
    | .Component => none
    | .Value => none
  | .importItem _ _ ty =>
    match ty with
    | .instanceTy _ => some .instances
    | .funcTy _ => some .funcs
    | _ => none
  | .instance_type _ => some .types
  | .defined_type => some .types
  | .function_type => some .types
  | .alias_type_export _ _ => some .types
  | .alias_outer_type _ _ => some .types
  | .flushOp => none

/-- How many calls of a trace advance the given index space. -/
def countTouch (s : Space) (T : List Op) : Nat :=
  (T.filter (fun o => touchSpace o = some s)).length

/-- The seven batchable section kinds. -/
inductive SectionKind
  | componentInstances
  | instances
  | canonicalFunctions
  | aliases
  | exports
  | imports
  | types
deriving DecidableEq

/-- A section entry of any of the seven batchable kinds, for stating
properties uniformly across kinds. -/
inductive Entry
  | componentInstance (e : ComponentInstanceEntry)
  | coreInstance (e : CoreInstanceEntry)
  | canon (e : CanonEntry)
  | aliasEntry (e : Alias)
  | exportEntry (e : ExportEntry)
  | importEntry (e : ImportEntry)
  | typeEntry (e : TypeEntry)
deriving DecidableEq

/-- The kind of the open section slot, if one is open. -/
def slotKind : LastSection → Option SectionKind
  | .none => none
  | .componentInstances _ => some .componentInstances
  | .instances _ => some .instances
  | .canonicalFunctions _ => some .canonicalFunctions
  | .aliases _ => some .aliases
  | .exports _ => some .exports
  | .imports _ => some .imports
  | .types _ => some .types

/-- The entries accumulated in the open section slot, in order. -/
def slotEntries : LastSection → List Entry
  | .none => []
  | .componentInstances s => s.map .componentInstance
  | .instances s => s.map .coreInstance
  | .canonicalFunctions s => s.map .canon
  | .aliases s => s.map .aliasEntry
  | .exports s => s.map .exportEntry
  | .imports s => s.map .importEntry
  | .types s => s.map .typeEntry

/-- The batchable kind of a sealed section (`none` for the two module
section forms). -/
def sectionKind : Section → Option SectionKind
  | .module _ => none
  | .raw _ _ => none
  | .componentInstances _ => some .componentInstances
  | .instances _ => some .instances
  | .canonicalFunctions _ => some .canonicalFunctions
  | .aliases _ => some .aliases
  | .exports _ => some .exports
  | .imports _ => some .imports
  | .types _ => some .types

/-- The entries of a sealed section, in order (empty for module
sections, whose payload is not an entry list). -/
def sectionEntries : Section → List Entry
  | .module _ => []
  | .raw _ _ => []
  | .componentInstances s => s.map .componentInstance
  | .instances s => s.map .coreInstance
  | .canonicalFunctions s => s.map .canon
  | .aliases s => s.map .aliasEntry
  | .exports s => s.map .exportEntry
  | .imports s => s.map .importEntry
  | .types s => s.map .typeEntry

/-- The batchable section kind a call appends to: `some` exactly for the
supported batchable registrations; `none` for module registrations,
`flush`, and the unsupported-kind calls. -/
def batchKind : Op → Option SectionKind
  | .instantiate _ _ => some .instances
  | .alias_func _ _ => some .aliases
  | .lower_func _ _ => some .canonicalFunctions
  | .lift_func _ _ _ => some .canonicalFunctions
  | .instantiate_core_exports _ => some .instances
  | .instantiate_exports _ => some .componentInstances
  | .core_module _ => none
  | .core_module_raw _ => none
  | .alias_core_item _ k _ =>
    match k with
    | .Global => none
    | .Tag => none
    | _ => some .aliases
  | .exportItem _ _ k _ =>
    match k with
    | .Component => none
    | .Value => none
    | _ => some .exports
  | .importItem _ _ ty =>
    match ty with
    | .instanceTy _ => some .imports
    | .funcTy _ => some .imports
    | _ => none
  | .instance_type _ => some .types
  | .defined_type => some .types
  | .function_type => some .types
  | .alias_type_export _ _ => some .aliases
  | .alias_outer_type _ _ => some .aliases
  | .flushOp => none

/-- The entry a supported batchable registration appends. -/
def entryOf : Op → Option Entry
  | .instantiate mi args => some (.coreInstance (.instantiateE mi args))
  | .alias_func i n => some (.aliasEntry (.instanceExport i .Func n))
  | .lower_func f o => some (.canon (.lower f o))
  | .lift_func cf t o => some (.canon (.lift cf t o))
  | .instantiate_core_exports e => some (.coreInstance (.exportItemsE e))
  | .instantiate_exports e => some (.componentInstance (.exportItemsE e))
  | .alias_core_item i k n =>
    match k with
    | .Global => none
    | .Tag => none
    | _ => some (.aliasEntry (.coreInstanceExport i k n))
  | .exportItem n u k i =>
    match k with
    | .Component => none
    | .Value => none
    | _ => some (.exportEntry { name := n, url := u, kind := k, idx := i })
  | .importItem n u ty =>
    match ty with
    | .instanceTy _ => some (.importEntry { name := n, url := u, ty := ty })
    | .funcTy _ => some (.importEntry { name := n, url := u, ty := ty })
    | _ => none
  | .instance_type ty => some (.typeEntry (.instanceTy ty))
  | .defined_type => some (.typeEntry .definedTy)
  | .function_type => some (.typeEntry .funcTy)
  | .alias_type_export i n => some (.aliasEntry (.instanceExport i .Typ n))
  | .alias_outer_type c i => some (.aliasEntry (.outer c .Typ i))
  | _ => none

/-- The standalone section written by a sub-module registration. -/
def moduleSectionOf : Op → Option Section
  | .core_module m => some (.module m)
  | .core_module_raw bs => some (.raw 1 bs)
  | _ => none

/-! ## Helper lemmas -/

/-- `flush` seals the open slot (if any) onto the output and clears it. -/
theorem flush_eq (b : ComponentBuilder) :
    b.flush = { b with component := b.component ++ sealList b.last_section,
                       last_section := .none } := by
  cases b with
  | mk comp ls a1 a2 a3 a4 a5 a6 a7 a8 =>
    cases ls <;> simp [ComponentBuilder.flush, sealList]

theorem counter_flush (b : ComponentBuilder) (s : Space) :
    counter b.flush s = counter b s := by
  rw [flush_eq]; cases s <;> simp [counter]

theorem counter_mk_last_section (b : ComponentBuilder) (ls : LastSection) (s : Space) :
    counter { b with last_section := ls } s = counter b s := by
  cases s <;> simp [counter]

/-- Sealing a slot of kind `κ` yields exactly one section, of that kind,
holding exactly the slot's entries. -/
theorem sealList_of_slotKind (ls : LastSection) (κ : SectionKind)
    (h : slotKind ls = some κ) :
    ∃ s, sealList ls = [s] ∧ sectionKind s = some κ ∧ sectionEntries s = slotEntries ls := by
  cases ls <;> simp_all [slotKind, sealList, sectionKind, sectionEntries, slotEntries]

/-- Characterization of `addComponentInstance` on the observable state. -/
theorem addComponentInstance_spec (b : ComponentBuilder) (e : ComponentInstanceEntry) :
    (b.addComponentInstance e).component =
      b.component ++
        (if slotKind b.last_section = some .componentInstances then []
         else sealList b.last_section) ∧
    slotKind (b.addComponentInstance e).last_section = some .componentInstances ∧
    slotEntries (b.addComponentInstance e).last_section =
      (if slotKind b.last_section = some .componentInstances then
        slotEntries b.last_section
       else []) ++ [.componentInstance e] ∧
    (b.addComponentInstance e).core_modules = b.core_modules ∧
    (b.addComponentInstance e).core_funcs = b.core_funcs ∧
    (b.addComponentInstance e).core_memories = b.core_memories ∧
    (b.addComponentInstance e).core_tables = b.core_tables ∧
    (b.addComponentInstance e).core_instances = b.core_instances ∧
    (b.addComponentInstance e).funcs = b.funcs ∧
    (b.addComponentInstance e).instances = b.instances ∧
    (b.addComponentInstance e).types = b.types := by
  cases hb : b.last_section <;>
    simp_all [ComponentBuilder.addComponentInstance, hb, flush_eq, slotKind, slotEntries, sealList]

/-- Characterization of `addCoreInstance` on the observable state. -/
theorem addCoreInstance_spec (b : ComponentBuilder) (e : CoreInstanceEntry) :
    (b.addCoreInstance e).component =
      b.component ++
        (if slotKind b.last_section = some .instances then []
         else sealList b.last_section) ∧
    slotKind (b.addCoreInstance e).last_section = some .instances ∧
    slotEntries (b.addCoreInstance e).last_section =
      (if slotKind b.last_section = some .instances then
        slotEntries b.last_section
       else []) ++ [.coreInstance e] ∧
    (b.addCoreInstance e).core_modules = b.core_modules ∧
    (b.addCoreInstance e).core_funcs = b.core_funcs ∧
    (b.addCoreInstance e).core_memories = b.core_memories ∧
    (b.addCoreInstance e).core_tables = b.core_tables ∧
    (b.addCoreInstance e).core_instances = b.core_instances ∧
    (b.addCoreInstance e).funcs = b.funcs ∧
    (b.addCoreInstance e).instances = b.instances ∧
    (b.addCoreInstance e).types = b.types := by
  cases hb : b.last_section <;>
    simp_all [ComponentBuilder.addCoreInstance, hb, flush_eq, slotKind, slotEntries, sealList]

/-- Characterization of `addCanon` on the observable state. -/
theorem addCanon_spec (b : ComponentBuilder) (e : CanonEntry) :
    (b.addCanon e).component =
      b.component ++
        (if slotKind b.last_section = some .canonicalFunctions then []
         else sealList b.last_section) ∧
    slotKind (b.addCanon e).last_section = some .canonicalFunctions ∧
    slotEntries (b.addCanon e).last_section =
      (if slotKind b.last_section = some .canonicalFunctions then
        slotEntries b.last_section
       else []) ++ [.canon e] ∧
    (b.addCanon e).core_modules = b.core_modules ∧
    (b.addCanon e).core_funcs = b.core_funcs ∧
    (b.addCanon e).core_memories = b.core_memories ∧
    (b.addCanon e).core_tables = b.core_tables ∧
    (b.addCanon e).core_instances = b.core_instances ∧
    (b.addCanon e).funcs = b.funcs ∧
    (b.addCanon e).instances = b.instances ∧
    (b.addCanon e).types = b.types := by
  cases hb : b.last_section <;>
    simp_all [ComponentBuilder.addCanon, hb, flush_eq, slotKind, slotEntries, sealList]

/-- Characterization of `addAlias` on the observable state. -/
theorem addAlias_spec (b : ComponentBuilder) (e : Alias) :
    (b.addAlias e).component =
      b.component ++
        (if slotKind b.last_section = some .aliases then []
         else sealList b.last_section) ∧
    slotKind (b.addAlias e).last_section = some .aliases ∧
    slotEntries (b.addAlias e).last_section =
      (if slotKind b.last_section = some .aliases then
        slotEntries b.last_section
       else []) ++ [.aliasEntry e] ∧
    (b.addAlias e).core_modules = b.core_modules ∧
    (b.addAlias e).core_funcs = b.core_funcs ∧
    (b.addAlias e).core_memories = b.core_memories ∧
    (b.addAlias e).core_tables = b.core_tables ∧
    (b.addAlias e).core_instances = b.core_instances ∧
    (b.addAlias e).funcs = b.funcs ∧
    (b.addAlias e).instances = b.instances ∧
    (b.addAlias e).types = b.types := by
  cases hb : b.last_section <;>
    simp_all [ComponentBuilder.addAlias, hb, flush_eq, slotKind, slotEntries, sealList]

/-- Characterization of `addExport` on the observable state. -/
theorem addExport_spec (b : ComponentBuilder) (e : ExportEntry) :
    (b.addExport e).component =
      b.component ++
        (if slotKind b.last_section = some .exports then []
         else sealList b.last_section) ∧
    slotKind (b.addExport e).last_section = some .exports ∧
    slotEntries (b.addExport e).last_section =
      (if slotKind b.last_section = some .exports then
        slotEntries b.last_section
       else []) ++ [.exportEntry e] ∧
    (b.addExport e).core_modules = b.core_modules ∧
    (b.addExport e).core_funcs = b.core_funcs ∧
    (b.addExport e).core_memories = b.core_memories ∧
    (b.addExport e).core_tables = b.core_tables ∧
    (b.addExport e).core_instances = b.core_instances ∧
    (b.addExport e).funcs = b.funcs ∧
    (b.addExport e).instances = b.instances ∧
    (b.addExport e).types = b.types := by
  cases hb : b.last_section <;>
    simp_all [ComponentBuilder.addExport, hb, flush_eq, slotKind, slotEntries, sealList]

/-- Characterization of `addImport` on the observable state. -/
theorem addImport_spec (b : ComponentBuilder) (e : ImportEntry) :
    (b.addImport e).component =
      b.component ++
        (if slotKind b.last_section = some .imports then []
         else sealList b.last_section) ∧
    slotKind (b.addImport e).last_section = some .imports ∧
    slotEntries (b.addImport e).last_section =
      (if slotKind b.last_section = some .imports then
        slotEntries b.last_section
       else []) ++ [.importEntry e] ∧
    (b.addImport e).core_modules = b.core_modules ∧
    (b.addImport e).core_funcs = b.core_funcs ∧
    (b.addImport e).core_memories = b.core_memories ∧
    (b.addImport e).core_tables = b.core_tables ∧
    (b.addImport e).core_instances = b.core_instances ∧
    (b.addImport e).funcs = b.funcs ∧
    (b.addImport e).instances = b.instances ∧
    (b.addImport e).types = b.types := by
  cases hb : b.last_section <;>
    simp_all [ComponentBuilder.addImport, hb, flush_eq, slotKind, slotEntries, sealList]

/-- Characterization of `addType` on the observable state. -/
theorem addType_spec (b : ComponentBuilder) (e : TypeEntry) :
    (b.addType e).component =
      b.component ++
        (if slotKind b.last_section = some .types then []
         else sealList b.last_section) ∧
    slotKind (b.addType e).last_section = some .types ∧
    slotEntries (b.addType e).last_section =
      (if slotKind b.last_section = some .types then
        slotEntries b.last_section
       else []) ++ [.typeEntry e] ∧
    (b.addType e).core_modules = b.core_modules ∧
    (b.addType e).core_funcs = b.core_funcs ∧
    (b.addType e).core_memories = b.core_memories ∧
    (b.addType e).core_tables = b.core_tables ∧
    (b.addType e).core_instances = b.core_instances ∧
    (b.addType e).funcs = b.funcs ∧
    (b.addType e).instances = b.instances ∧
    (b.addType e).types = b.types := by
  cases hb : b.last_section <;>
    simp_all [ComponentBuilder.addType, hb, flush_eq, slotKind, slotEntries, sealList]

/-- A supported batchable registration succeeds, appends its entry to the
open slot when the slot already has its kind, and otherwise seals the
open slot (if any) to the output and opens a fresh slot holding just this
entry. -/
theorem stepOp_batch (b : ComponentBuilder) (o : Op) (κ : SectionKind) (e : Entry)
    (hκ : batchKind o = some κ) (he : entryOf o = some e) :
    ∃ b' r, stepOp b o = some (b', some r) ∧
      b'.component = b.component ++
        (if slotKind b.last_section = some κ then [] else sealList b.last_section) ∧
      slotKind b'.last_section = some κ ∧
      slotEntries b'.last_section =
        (if slotKind b.last_section = some κ then slotEntries b.last_section else [])
          ++ [e] := by
  cases o with
  | instantiate mi args =>
    simp only [batchKind, Option.some.injEq] at hκ
    simp only [entryOf, Option.some.injEq] at he
    subst hκ; subst he
    obtain ⟨h1, h2, h3, -⟩ := addCoreInstance_spec b (.instantiateE mi args)
    exact ⟨_, _, rfl, by simpa [ComponentBuilder.instantiate, inc] using h1,
      by simpa [ComponentBuilder.instantiate, inc] using h2,
      by simpa [ComponentBuilder.instantiate, inc] using h3⟩
  | alias_func i n =>
    simp only [batchKind, Option.some.injEq] at hκ
    simp only [entryOf, Option.some.injEq] at he
    subst hκ; subst he
    obtain ⟨h1, h2, h3, -⟩ := addAlias_spec b (.instanceExport i .Func n)
    exact ⟨_, _, rfl, by simpa [ComponentBuilder.alias_func, inc] using h1,
      by simpa [ComponentBuilder.alias_func, inc] using h2,
      by simpa [ComponentBuilder.alias_func, inc] using h3⟩
  | lower_func f os =>
    simp only [batchKind, Option.some.injEq] at hκ
    simp only [entryOf, Option.some.injEq] at he
    subst hκ; subst he
    obtain ⟨h1, h2, h3, -⟩ := addCanon_spec b (.lower f os)
    exact ⟨_, _, rfl, by simpa [ComponentBuilder.lower_func, inc] using h1,
      by simpa [ComponentBuilder.lower_func, inc] using h2,
      by simpa [ComponentBuilder.lower_func, inc] using h3⟩
  | lift_func cf t os =>
    simp only [batchKind, Option.some.injEq] at hκ
    simp only [entryOf, Option.some.injEq] at he
    subst hκ; subst he
    obtain ⟨h1, h2, h3, -⟩ := addCanon_spec b (.lift cf t os)
    exact ⟨_, _, rfl, by simpa [ComponentBuilder.lift_func, inc] using h1,
      by simpa [ComponentBuilder.lift_func, inc] using h2,
      by simpa [ComponentBuilder.lift_func, inc] using h3⟩
  | instantiate_core_exports ex =>
    simp only [batchKind, Option.some.injEq] at hκ
    simp only [entryOf, Option.some.injEq] at he
    subst hκ; subst he
    obtain ⟨h1, h2, h3, -⟩ := addCoreInstance_spec b (.exportItemsE ex)
    exact ⟨_, _, rfl, by simpa [ComponentBuilder.instantiate_core_exports, inc] using h1,
      by simpa [ComponentBuilder.instantiate_core_exports, inc] using h2,
      by simpa [ComponentBuilder.instantiate_core_exports, inc] using h3⟩
  | instantiate_exports ex =>
    simp only [batchKind, Option.some.injEq] at hκ
    simp only [entryOf, Option.some.injEq] at he
    subst hκ; subst he
    obtain ⟨h1, h2, h3, -⟩ := addComponentInstance_spec b (.exportItemsE ex)
    exact ⟨_, _, rfl, by simpa [ComponentBuilder.instantiate_exports, inc] using h1,
      by simpa [ComponentBuilder.instantiate_exports, inc] using h2,
      by simpa [ComponentBuilder.instantiate_exports, inc] using h3⟩
  | core_module m => simp [batchKind] at hκ
  | core_module_raw bs => simp [batchKind] at hκ
  | alias_core_item i k n =>
    cases k with
    | Global => simp [batchKind] at hκ
    | Tag => simp [batchKind] at hκ
    | Func =>
      simp only [batchKind, Option.some.injEq] at hκ
      simp only [entryOf, Option.some.injEq] at he
      subst hκ; subst he
      obtain ⟨h1, h2, h3, -⟩ := addAlias_spec b (.coreInstanceExport i .Func n)
      exact ⟨_, _, rfl, by simpa [ComponentBuilder.alias_core_item, inc] using h1,
        by simpa [ComponentBuilder.alias_core_item, inc] using h2,
        by simpa [ComponentBuilder.alias_core_item, inc] using h3⟩
    | Table =>
      simp only [batchKind, Option.some.injEq] at hκ
      simp only [entryOf, Option.some.injEq] at he
      subst hκ; subst he
      obtain ⟨h1, h2, h3, -⟩ := addAlias_spec b (.coreInstanceExport i .Table n)
      exact ⟨_, _, rfl, by simpa [ComponentBuilder.alias_core_item, inc] using h1,
        by simpa [ComponentBuilder.alias_core_item, inc] using h2,
        by simpa [ComponentBuilder.alias_core_item, inc] using h3⟩
    | Memory =>
      simp only [batchKind, Option.some.injEq] at hκ
      simp only [entryOf, Option.some.injEq] at he
      subst hκ; subst he
      obtain ⟨h1, h2, h3, -⟩ := addAlias_spec b (.coreInstanceExport i .Memory n)
      exact ⟨_, _, rfl, by simpa [ComponentBuilder.alias_core_item, inc] using h1,
        by simpa [ComponentBuilder.alias_core_item, inc] using h2,
        by simpa [ComponentBuilder.alias_core_item, inc] using h3⟩
  | exportItem n u k i =>
    cases k with
    | Component => simp [batchKind] at hκ
    | Value => simp [batchKind] at hκ
    | Typ =>
      simp only [batchKind, Option.some.injEq] at hκ
      simp only [entryOf, Option.some.injEq] at he
      subst hκ; subst he
      obtain ⟨h1, h2, h3, -⟩ := addExport_spec b { name := n, url := u, kind := .Typ, idx := i }
      exact ⟨_, _, rfl, by simpa [ComponentBuilder.exportItem, inc] using h1,
        by simpa [ComponentBuilder.exportItem, inc] using h2,
        by simpa [ComponentBuilder.exportItem, inc] using h3⟩
    | Func =>
      simp only [batchKind, Option.some.injEq] at hκ
      simp only [entryOf, Option.some.injEq] at he
      subst hκ; subst he
      obtain ⟨h1, h2, h3, -⟩ := addExport_spec b { name := n, url := u, kind := .Func, idx := i }
      exact ⟨_, _, rfl, by simpa [ComponentBuilder.exportItem, inc] using h1,
        by simpa [ComponentBuilder.exportItem, inc] using h2,
        by simpa [ComponentBuilder.exportItem, inc] using h3⟩
    | Module =>
      simp only [batchKind, Option.some.injEq] at hκ
      simp only [entryOf, Option.some.injEq] at he
      subst hκ; subst he
      obtain ⟨h1, h2, h3, -⟩ := addExport_spec b { name := n, url := u, kind := .Module, idx := i }
      exact ⟨_, _, rfl, by simpa [ComponentBuilder.exportItem, inc] using h1,
        by simpa [ComponentBuilder.exportItem, inc] using h2,
        by simpa [ComponentBuilder.exportItem, inc] using h3⟩
    | Instance =>
      simp only [batchKind, Option.some.injEq] at hκ
      simp only [entryOf, Option.some.injEq] at he
      subst hκ; subst he
      obtain ⟨h1, h2, h3, -⟩ := addExport_spec b { name := n, url := u, kind := .Instance, idx := i }
      exact ⟨_, _, rfl, by simpa [ComponentBuilder.exportItem, inc] using h1,
        by simpa [ComponentBuilder.exportItem, inc] using h2,
        by simpa [ComponentBuilder.exportItem, inc] using h3⟩
  | importItem n u ty =>
    cases ty with
    | moduleTy i => simp [batchKind] at hκ
    | valueTy t => simp [batchKind] at hκ
    | typeTy t => simp [batchKind] at hκ
    | componentTy i => simp [batchKind] at hκ
    | instanceTy i =>
      simp only [batchKind, Option.some.injEq] at hκ
      simp only [entryOf, Option.some.injEq] at he
      subst hκ; subst he
      obtain ⟨h1, h2, h3, -⟩ :=
        addImport_spec { b with instances := b.instances + 1 }
          { name := n, url := u, ty := .instanceTy i }
      refine ⟨_, _, rfl, ?_, ?_, ?_⟩ <;>
        simpa [ComponentBuilder.importItem, inc, slotKind, slotEntries, sealList] using
          (by assumption : _)
    | funcTy i =>
      simp only [batchKind, Option.some.injEq] at hκ
      simp only [entryOf, Option.some.injEq] at he
      subst hκ; subst he
      obtain ⟨h1, h2, h3, -⟩ :=
        addImport_spec { b with funcs := b.funcs + 1 }
          { name := n, url := u, ty := .funcTy i }
      refine ⟨_, _, rfl, ?_, ?_, ?_⟩ <;>
        simpa [ComponentBuilder.importItem, inc, slotKind, slotEntries, sealList] using
          (by assumption : _)
  | instance_type ty =>
    simp only [batchKind, Option.some.injEq] at hκ
    simp only [entryOf, Option.some.injEq] at he
    subst hκ; subst he
    obtain ⟨h1, h2, h3, -⟩ :=
      addType_spec { b with types := b.types + 1 } (.instanceTy ty)
    refine ⟨_, _, rfl, ?_, ?_, ?_⟩ <;>
      simpa [ComponentBuilder.instance_type, inc, slotKind, slotEntries, sealList] using
        (by assumption : _)
  | defined_type =>
    simp only [batchKind, Option.some.injEq] at hκ
    simp only [entryOf, Option.some.injEq] at he
    subst hκ; subst he
    obtain ⟨h1, h2, h3, -⟩ := addType_spec { b with types := b.types + 1 } .definedTy
    refine ⟨_, _, rfl, ?_, ?_, ?_⟩ <;>
      simpa [ComponentBuilder.defined_type, inc, slotKind, slotEntries, sealList] using
        (by assumption : _)
  | function_type =>
    simp only [batchKind, Option.some.injEq] at hκ
    simp only [entryOf, Option.some.injEq] at he
    subst hκ; subst he
    obtain ⟨h1, h2, h3, -⟩ := addType_spec { b with types := b.types + 1 } .funcTy
    refine ⟨_, _, rfl, ?_, ?_, ?_⟩ <;>
      simpa [ComponentBuilder.function_type, inc, slotKind, slotEntries, sealList] using
        (by assumption : _)
  | alias_type_export i n =>
    simp only [batchKind, Option.some.injEq] at hκ
    simp only [entryOf, Option.some.injEq] at he
    subst hκ; subst he
    obtain ⟨h1, h2, h3, -⟩ := addAlias_spec b (.instanceExport i .Typ n)
    exact ⟨_, _, rfl, by simpa [ComponentBuilder.alias_type_export, inc] using h1,
      by simpa [ComponentBuilder.alias_type_export, inc] using h2,
      by simpa [ComponentBuilder.alias_type_export, inc] using h3⟩
  | alias_outer_type c i =>
    simp only [batchKind, Option.some.injEq] at hκ
    simp only [entryOf, Option.some.injEq] at he
    subst hκ; subst he
    obtain ⟨h1, h2, h3, -⟩ := addAlias_spec b (.outer c .Typ i)
    exact ⟨_, _, rfl, by simpa [ComponentBuilder.alias_outer_type, inc] using h1,
      by simpa [ComponentBuilder.alias_outer_type, inc] using h2,
      by simpa [ComponentBuilder.alias_outer_type, inc] using h3⟩
  | flushOp => simp [batchKind] at hκ

/-- Effect of one successful call on the index spaces: the counter of the
touched space (and only it) advances by one, and a returned index equals
the touched counter's value before the increment. -/
theorem stepOp_effect (b : ComponentBuilder) (o : Op) (b' : ComponentBuilder)
    (r : Option Nat) (h : stepOp b o = some (b', r)) :
    (∀ s, counter b' s = counter b s + (if touchSpace o = some s then 1 else 0)) ∧
    (∀ n, r = some n → ∃ s, touchSpace o = some s ∧ n = counter b s) := by
  cases o with
  | instantiate mi args =>
    obtain ⟨-, -, -, f1, f2, f3, f4, f5, f6, f7, f8⟩ :=
      addCoreInstance_spec b (.instantiateE mi args)
    simp only [stepOp, ComponentBuilder.instantiate, inc, Option.some.injEq,
      Prod.mk.injEq] at h
    obtain ⟨hb, hr⟩ := h
    subst hb; subst hr
    refine ⟨fun s => ?_, fun n hn => ?_⟩
    · cases s <;> simp [counter, touchSpace, f1, f2, f3, f4, f5, f6, f7, f8]
    · simp only [Option.some.injEq] at hn
      subst hn
      exact ⟨.coreInstances, rfl, by simp [counter, f5]⟩
  | alias_func i nm =>
    obtain ⟨-, -, -, f1, f2, f3, f4, f5, f6, f7, f8⟩ :=
      addAlias_spec b (.instanceExport i .Func nm)
    simp only [stepOp, ComponentBuilder.alias_func, inc, Option.some.injEq,
      Prod.mk.injEq] at h
    obtain ⟨hb, hr⟩ := h
    subst hb; subst hr
    refine ⟨fun s => ?_, fun n hn => ?_⟩
    · cases s <;> simp [counter, touchSpace, f1, f2, f3, f4, f5, f6, f7, f8]
    · simp only [Option.some.injEq] at hn
      subst hn
      exact ⟨.funcs, rfl, by simp [counter, f6]⟩
  | lower_func f os =>
    obtain ⟨-, -, -, f1, f2, f3, f4, f5, f6, f7, f8⟩ := addCanon_spec b (.lower f os)
    simp only [stepOp, ComponentBuilder.lower_func, inc, Option.some.injEq,
      Prod.mk.injEq] at h
    obtain ⟨hb, hr⟩ := h
    subst hb; subst hr
    refine ⟨fun s => ?_, fun n hn => ?_⟩
    · cases s <;> simp [counter, touchSpace, f1, f2, f3, f4, f5, f6, f7, f8]
    · simp only [Option.some.injEq] at hn
      subst hn
      exact ⟨.coreFuncs, rfl, by simp [counter, f2]⟩
  | lift_func cf t os =>
    obtain ⟨-, -, -, f1, f2, f3, f4, f5, f6, f7, f8⟩ := addCanon_spec b (.lift cf t os)
    simp only [stepOp, ComponentBuilder.lift_func, inc, Option.some.injEq,
      Prod.mk.injEq] at h
    obtain ⟨hb, hr⟩ := h
    subst hb; subst hr
    refine ⟨fun s => ?_, fun n hn => ?_⟩
    · cases s <;> simp [counter, touchSpace, f1, f2, f3, f4, f5, f6, f7, f8]
    · simp only [Option.some.injEq] at hn
      subst hn
      exact ⟨.funcs, rfl, by simp [counter, f6]⟩
  | instantiate_core_exports ex =>
    obtain ⟨-, -, -, f1, f2, f3, f4, f5, f6, f7, f8⟩ :=
      addCoreInstance_spec b (.exportItemsE ex)
    simp only [stepOp, ComponentBuilder.instantiate_core_exports, inc, Option.some.injEq,
      Prod.mk.injEq] at h
    obtain ⟨hb, hr⟩ := h
    subst hb; subst hr
    refine ⟨fun s => ?_, fun n hn => ?_⟩
    · cases s <;> simp [counter, touchSpace, f1, f2, f3, f4, f5, f6, f7, f8]
    · simp only [Option.some.injEq] at hn
      subst hn
      exact ⟨.coreInstances, rfl, by simp [counter, f5]⟩
  | instantiate_exports ex =>
    obtain ⟨-, -, -, f1, f2, f3, f4, f5, f6, f7, f8⟩ :=
      addComponentInstance_spec b (.exportItemsE ex)
    simp only [stepOp, ComponentBuilder.instantiate_exports, inc, Option.some.injEq,
      Prod.mk.injEq] at h
    obtain ⟨hb, hr⟩ := h
    subst hb; subst hr
    refine ⟨fun s => ?_, fun n hn => ?_⟩
    · cases s <;> simp [counter, touchSpace, f1, f2, f3, f4, f5, f6, f7, f8]
    · simp only [Option.some.injEq] at hn
      subst hn
      exact ⟨.instances, rfl, by simp [counter, f7]⟩
  | core_module m =>
    simp only [stepOp, ComponentBuilder.core_module, inc, Option.some.injEq,
      Prod.mk.injEq] at h
    obtain ⟨hb, hr⟩ := h
    subst hb; subst hr
    refine ⟨fun s => ?_, fun n hn => ?_⟩
    · cases s <;> simp [counter, touchSpace, counter_flush, flush_eq]
    · simp only [Option.some.injEq] at hn
      subst hn
      exact ⟨.coreModules, rfl, by simp [counter, flush_eq]⟩
  | core_module_raw bs =>
    simp only [stepOp, ComponentBuilder.core_module_raw, inc, Option.some.injEq,
      Prod.mk.injEq] at h
    obtain ⟨hb, hr⟩ := h
    subst hb; subst hr
    refine ⟨fun s => ?_, fun n hn => ?_⟩
    · cases s <;> simp [counter, touchSpace, counter_flush, flush_eq]
    · simp only [Option.some.injEq] at hn
      subst hn
      exact ⟨.coreModules, rfl, by simp [counter, flush_eq]⟩
  | alias_core_item i k nm =>
    cases k with
    | Global => simp [stepOp, ComponentBuilder.alias_core_item] at h
    | Tag => simp [stepOp, ComponentBuilder.alias_core_item] at h
    | Func =>
      obtain ⟨-, -, -, f1, f2, f3, f4, f5, f6, f7, f8⟩ :=
        addAlias_spec b (.coreInstanceExport i .Func nm)
      simp only [stepOp, ComponentBuilder.alias_core_item, inc, Option.some.injEq,
        Prod.mk.injEq] at h
      obtain ⟨hb, hr⟩ := h
      subst hb; subst hr
      refine ⟨fun s => ?_, fun n hn => ?_⟩
      · cases s <;> simp [counter, touchSpace, f1, f2, f3, f4, f5, f6, f7, f8]
      · simp only [Option.some.injEq] at hn
        subst hn
        exact ⟨.coreFuncs, rfl, by simp [counter, f2]⟩
    | Table =>
      obtain ⟨-, -, -, f1, f2, f3, f4, f5, f6, f7, f8⟩ :=
        addAlias_spec b (.coreInstanceExport i .Table nm)
      simp only [stepOp, ComponentBuilder.alias_core_item, inc, Option.some.injEq,
        Prod.mk.injEq] at h
      obtain ⟨hb, hr⟩ := h
      subst hb; subst hr
      refine ⟨fun s => ?_, fun n hn => ?_⟩
      · cases s <;> simp [counter, touchSpace, f1, f2, f3, f4, f5, f6, f7, f8]
      · simp only [Option.some.injEq] at hn
        subst hn
        exact ⟨.coreTables, rfl, by simp [counter, f4]⟩
    | Memory =>
      obtain ⟨-, -, -, f1, f2, f3, f4, f5, f6, f7, f8⟩ :=
        addAlias_spec b (.coreInstanceExport i .Memory nm)
      simp only [stepOp, ComponentBuilder.alias_core_item, inc, Option.some.injEq,
        Prod.mk.injEq] at h
      obtain ⟨hb, hr⟩ := h
      subst hb; subst hr
      refine ⟨fun s => ?_, fun n hn => ?_⟩
      · cases s <;> simp [counter, touchSpace, f1, f2, f3, f4, f5, f6, f7, f8]
      · simp only [Option.some.injEq] at hn
        subst hn
        exact ⟨.coreMemories, rfl, by simp [counter, f3]⟩
  | exportItem nm u k i =>
    cases k with
    | Component => simp [stepOp, ComponentBuilder.exportItem] at h
    | Value => simp [stepOp, ComponentBuilder.exportItem] at h
    | Typ =>
      obtain ⟨-, -, -, f1, f2, f3, f4, f5, f6, f7, f8⟩ :=
        addExport_spec b { name := nm, url := u, kind := .Typ, idx := i }
      simp only [stepOp, ComponentBuilder.exportItem, inc, Option.some.injEq,
        Prod.mk.injEq] at h
      obtain ⟨hb, hr⟩ := h
      subst hb; subst hr
      refine ⟨fun s => ?_, fun n hn => ?_⟩
      · cases s <;> simp [counter, touchSpace, f1, f2, f3, f4, f5, f6, f7, f8]
      · simp only [Option.some.injEq] at hn
        subst hn
        exact ⟨.types, rfl, by simp [counter, f8]⟩
    | Func =>
      obtain ⟨-, -, -, f1, f2, f3, f4, f5, f6, f7, f8⟩ :=
        addExport_spec b { name := nm, url := u, kind := .Func, idx := i }
      simp only [stepOp, ComponentBuilder.exportItem, inc, Option.some.injEq,
        Prod.mk.injEq] at h
      obtain ⟨hb, hr⟩ := h
      subst hb; subst hr
      refine ⟨fun s => ?_, fun n hn => ?_⟩
      · cases s <;> simp [counter, touchSpace, f1, f2, f3, f4, f5, f6, f7, f8]
      · simp only [Option.some.injEq] at hn
        subst hn
        exact ⟨.funcs, rfl, by simp [counter, f6]⟩
    | Module =>
      obtain ⟨-, -, -, f1, f2, f3, f4, f5, f6, f7, f8⟩ :=
        addExport_spec b { name := nm, url := u, kind := .Module, idx := i }
      simp only [stepOp, ComponentBuilder.exportItem, inc, Option.some.injEq,
        Prod.mk.injEq] at h
      obtain ⟨hb, hr⟩ := h
      subst hb; subst hr
      refine ⟨fun s => ?_, fun n hn => ?_⟩
      · cases s <;> simp [counter, touchSpace, f1, f2, f3, f4, f5, f6, f7, f8]
      · simp only [Option.some.injEq] at hn
        subst hn
        exact ⟨.coreModules, rfl, by simp [counter, f1]⟩
    | Instance =>
      obtain ⟨-, -, -, f1, f2, f3, f4, f5, f6, f7, f8⟩ :=
        addExport_spec b { name := nm, url := u, kind := .Instance, idx := i }
      simp only [stepOp, ComponentBuilder.exportItem, inc, Option.some.injEq,
        Prod.mk.injEq] at h
      obtain ⟨hb, hr⟩ := h
      subst hb; subst hr
      refine ⟨fun s => ?_, fun n hn => ?_⟩
      · cases s <;> simp [counter, touchSpace, f1, f2, f3, f4, f5, f6, f7, f8]
      · simp only [Option.some.injEq] at hn
        subst hn
        exact ⟨.instances, rfl, by simp [counter, f7]⟩
  | importItem nm u ty =>
    cases ty with
    | moduleTy i => simp [stepOp, ComponentBuilder.importItem] at h
    | valueTy t => simp [stepOp, ComponentBuilder.importItem] at h
    | typeTy t => simp [stepOp, ComponentBuilder.importItem] at h
    | componentTy i => simp [stepOp, ComponentBuilder.importItem] at h
    | instanceTy i =>
      obtain ⟨-, -, -, f1, f2, f3, f4, f5, f6, f7, f8⟩ :=
        addImport_spec { b with instances := b.instances + 1 }
          { name := nm, url := u, ty := .instanceTy i }
      simp only [stepOp, ComponentBuilder.importItem, inc, Option.some.injEq,
        Prod.mk.injEq] at h
      obtain ⟨hb, hr⟩ := h
      subst hb; subst hr
      refine ⟨fun s => ?_, fun n hn => ?_⟩
      · cases s <;> simp_all [counter, touchSpace]
      · simp only [Option.some.injEq] at hn
        subst hn
        exact ⟨.instances, rfl, by simp [counter]⟩
    | funcTy i =>
      obtain ⟨-, -, -, f1, f2, f3, f4, f5, f6, f7, f8⟩ :=
        addImport_spec { b with funcs := b.funcs + 1 }
          { name := nm, url := u, ty := .funcTy i }
      simp only [stepOp, ComponentBuilder.importItem, inc, Option.some.injEq,
        Prod.mk.injEq] at h
      obtain ⟨hb, hr⟩ := h
      subst hb; subst hr
      refine ⟨fun s => ?_, fun n hn => ?_⟩
      · cases s <;> simp_all [counter, touchSpace]
      · simp only [Option.some.injEq] at hn
        subst hn
        exact ⟨.funcs, rfl, by simp [counter]⟩
  | instance_type ty =>
    obtain ⟨-, -, -, f1, f2, f3, f4, f5, f6, f7, f8⟩ :=
      addType_spec { b with types := b.types + 1 } (.instanceTy ty)
    simp only [stepOp, ComponentBuilder.instance_type, inc, Option.some.injEq,
      Prod.mk.injEq] at h
    obtain ⟨hb, hr⟩ := h
    subst hb; subst hr
    refine ⟨fun s => ?_, fun n hn => ?_⟩
    · cases s <;> simp_all [counter, touchSpace]
    · simp only [Option.some.injEq] at hn
      subst hn
      exact ⟨.types, rfl, by simp [counter]⟩
  | defined_type =>
    obtain ⟨-, -, -, f1, f2, f3, f4, f5, f6, f7, f8⟩ :=
      addType_spec { b with types := b.types + 1 } .definedTy
    simp only [stepOp, ComponentBuilder.defined_type, inc, Option.some.injEq,
      Prod.mk.injEq] at h
    obtain ⟨hb, hr⟩ := h
    subst hb; subst hr
    refine ⟨fun s => ?_, fun n hn => ?_⟩
    · cases s <;> simp_all [counter, touchSpace]
    · simp only [Option.some.injEq] at hn
      subst hn
      exact ⟨.types, rfl, by simp [counter]⟩
  | function_type =>
    obtain ⟨-, -, -, f1, f2, f3, f4, f5, f6, f7, f8⟩ :=
      addType_spec { b with types := b.types + 1 } .funcTy
    simp only [stepOp, ComponentBuilder.function_type, inc, Option.some.injEq,
      Prod.mk.injEq] at h
    obtain ⟨hb, hr⟩ := h
    subst hb; subst hr
    refine ⟨fun s => ?_, fun n hn => ?_⟩
    · cases s <;> simp_all [counter, touchSpace]
    · simp only [Option.some.injEq] at hn
      subst hn
      exact ⟨.types, rfl, by simp [counter]⟩
  | alias_type_export i nm =>
    obtain ⟨-, -, -, f1, f2, f3, f4, f5, f6, f7, f8⟩ :=
      addAlias_spec b (.instanceExport i .Typ nm)
    simp only [stepOp, ComponentBuilder.alias_type_export, inc, Option.some.injEq,
      Prod.mk.injEq] at h
    obtain ⟨hb, hr⟩ := h
    subst hb; subst hr
    refine ⟨fun s => ?_, fun n hn => ?_⟩
    · cases s <;> simp [counter, touchSpace, f1, f2, f3, f4, f5, f6, f7, f8]
    · simp only [Option.some.injEq] at hn
      subst hn
      exact ⟨.types, rfl, by simp [counter, f8]⟩
  | alias_outer_type c i =>
    obtain ⟨-, -, -, f1, f2, f3, f4, f5, f6, f7, f8⟩ := addAlias_spec b (.outer c .Typ i)
    simp only [stepOp, ComponentBuilder.alias_outer_type, inc, Option.some.injEq,
      Prod.mk.injEq] at h
    obtain ⟨hb, hr⟩ := h
    subst hb; subst hr
    refine ⟨fun s => ?_, fun n hn => ?_⟩
    · cases s <;> simp [counter, touchSpace, f1, f2, f3, f4, f5, f6, f7, f8]
    · simp only [Option.some.injEq] at hn
      subst hn
      exact ⟨.types, rfl, by simp [counter, f8]⟩
  | flushOp =>
    simp only [stepOp, Option.some.injEq, Prod.mk.injEq] at h
    obtain ⟨hb, hr⟩ := h
    subst hb; subst hr
    refine ⟨fun s => ?_, fun n hn => ?_⟩
    · simp [counter_flush, touchSpace]
    · simp at hn

/-- A sub-module registration seals the open slot (if any), then writes
its module as an immediate standalone section, leaving no slot open. -/
theorem stepOp_module (b : ComponentBuilder) (o : Op) (sec : Section)
    (hm : moduleSectionOf o = some sec) :
    ∃ b' n, stepOp b o = some (b', some n) ∧
      b'.component = b.component ++ sealList b.last_section ++ [sec] ∧
      b'.last_section = .none := by
  cases o <;> simp only [moduleSectionOf, Option.some.injEq, reduceCtorEq] at hm
  case core_module m =>
    subst hm
    refine ⟨_, _, rfl, ?_, ?_⟩ <;> simp [ComponentBuilder.core_module, inc, flush_eq]
  case core_module_raw bs =>
    subst hm
    refine ⟨_, _, rfl, ?_, ?_⟩ <;> simp [ComponentBuilder.core_module_raw, inc, flush_eq]

/-- A supported batchable registration appends exactly one entry. -/
theorem entryOf_of_batchKind (o : Op) (κ : SectionKind) (h : batchKind o = some κ) :
    ∃ e, entryOf o = some e := by
  cases o <;> try simp [entryOf]
  case alias_core_item i k n => cases k <;> simp_all [batchKind, entryOf]
  case exportItem n u k i => cases k <;> simp_all [batchKind, entryOf]
  case importItem n u ty => cases ty <;> simp_all [batchKind, entryOf]
  case core_module m => simp [batchKind] at h
  case core_module_raw bs => simp [batchKind] at h
  case flushOp => simp [batchKind] at h

theorem countTouch_cons (s : Space) (o : Op) (T : List Op) :
    countTouch s (o :: T) = (if touchSpace o = some s then 1 else 0) + countTouch s T := by
  by_cases h : touchSpace o = some s <;>
    simp [countTouch, List.filter_cons, h, Nat.add_comm]

/-- Counter invariant of a whole trace: each counter grows by exactly the
number of calls that touch its space. -/
theorem runOps_counter (T : List Op) : ∀ b b', runOps b T = some b' →
    ∀ s, counter b' s = counter b s + countTouch s T := by
  induction T with
  | nil =>
    intro b b' h s
    simp only [runOps, Option.some.injEq] at h
    subst h
    simp [countTouch]
  | cons o T ih =>
    intro b b' h s
    simp only [runOps] at h
    cases hs : stepOp b o with
    | none => rw [hs] at h; exact absurd h (by simp)
    | some p =>
      rw [hs] at h
      obtain ⟨b1, r⟩ := p
      have heff := (stepOp_effect b o b1 r hs).1 s
      have hrest := ih b1 b' h s
      rw [hrest, heff, countTouch_cons]
      omega

/-- Running batchable registrations whose kind matches the open slot only
extends that slot, in call order; the output stream is untouched. -/
theorem runOps_batch_same (ops : List Op) : ∀ b κ, slotKind b.last_section = some κ →
    (∀ o ∈ ops, batchKind o = some κ) →
    ∃ b', runOps b ops = some b' ∧
      b'.component = b.component ∧
      slotKind b'.last_section = some κ ∧
      slotEntries b'.last_section = slotEntries b.last_section ++ ops.filterMap entryOf := by
  induction ops with
  | nil =>
    intro b κ h1 _
    exact ⟨b, rfl, rfl, h1, by simp⟩
  | cons o ops ih =>
    intro b κ h1 h2
    have hko : batchKind o = some κ := h2 o (by simp)
    obtain ⟨e, he⟩ := entryOf_of_batchKind o κ hko
    obtain ⟨b1, r, hstep, hcomp, hk1, hent⟩ := stepOp_batch b o κ e hko he
    simp only [h1] at hcomp hent
    simp at hcomp hent
    obtain ⟨b', hrun, hc, hk, hen⟩ := ih b1 κ hk1 (fun o ho => h2 o (List.mem_cons_of_mem _ ho))
    refine ⟨b', ?_, ?_, hk, ?_⟩
    · simp [runOps, hstep, hrun]
    · rw [hc, hcomp]
    · rw [hen, hent, List.filterMap_cons, he]
      simp

/-- Running a nonempty sequence of sub-module registrations seals the
open slot once, then emits one standalone section per registration, in
order, leaving no slot open. -/
theorem runOps_modules (ops : List Op) : ∀ b, (∀ o ∈ ops, (moduleSectionOf o).isSome) →
    ops ≠ [] →
    ∃ b', runOps b ops = some b' ∧
      b'.component = b.component ++ sealList b.last_section ++ ops.filterMap moduleSectionOf ∧
      b'.last_section = .none := by
  induction ops with
  | nil => intro b _ hne; exact absurd rfl hne
  | cons o ops ih =>
    intro b hall _
    obtain ⟨sec, hsec⟩ := Option.isSome_iff_exists.mp (hall o (by simp))
    obtain ⟨b1, n, hstep, hcomp, hnone⟩ := stepOp_module b o sec hsec
    by_cases hnil : ops = []
    · subst hnil
      refine ⟨b1, by simp [runOps, hstep], ?_, hnone⟩
      rw [hcomp]
      simp [List.filterMap_cons, hsec]
    · obtain ⟨b', hrun, hc, hn⟩ :=
        ih b1 (fun o ho => hall o (List.mem_cons_of_mem _ ho)) hnil
      refine ⟨b', by simp [runOps, hstep, hrun], ?_, hn⟩
      rw [hc, hcomp, hnone]
      simp [List.filterMap_cons, hsec, sealList]

theorem counter_default (s : Space) : counter defaultBuilder s = 0 := by
  cases s <;> rfl

theorem sealList_of_ne_none (ls : LastSection) (h : ls ≠ .none) :
    ∃ s, sealList ls = [s] := by
  cases ls <;> simp_all [sealList]

theorem length_filterMap_of_isSome {α β : Type} (f : α → Option β) (l : List α)
    (h : ∀ a ∈ l, (f a).isSome) : (l.filterMap f).length = l.length := by
  induction l with
  | nil => rfl
  | cons a l ih =>
    obtain ⟨b, hb⟩ := Option.isSome_iff_exists.mp (h a (by simp))
    simp [List.filterMap_cons, hb, ih (fun a ha => h a (List.mem_cons_of_mem _ ha))]

/-! ## Claims -/

/-- C1, counterexample: the claim states that an unsupported-kind call
aborts before any output mutation, the open section slot included. But
`alias_core_item` appends its alias entry to the slot *before*
dispatching on the kind, so at the `unreachable!()` abort for kind
`Global` the slot has already changed: from a fresh builder (slot empty)
the state at the abort has an open alias section holding the entry. -/
theorem C1_counterexample :
    defaultBuilder.alias_core_item 0 ExportKind.Global "g" =
      .error { defaultBuilder with
                 last_section := .aliases [.coreInstanceExport 0 .Global "g"] } ∧
    LastSection.aliases [.coreInstanceExport 0 .Global "g"] ≠
      defaultBuilder.last_section := by
  exact ⟨rfl, by decide⟩

/-- C1, amended: every unsupported-kind call aborts fatally, and no index
counter is modified before the abort; an unsupported `import` aborts
before any mutation at all, while unsupported `alias_core_item` /
`export` first append their entry to the open section slot (sealing any
different-kind open section into the output) and only then abort. -/
theorem C1_unsupported_kind_abort :
    (∀ (b : ComponentBuilder) (n u : String) (ty : ComponentTypeRef),
        (∀ i, ty ≠ ComponentTypeRef.instanceTy i) →
        (∀ i, ty ≠ ComponentTypeRef.funcTy i) →
        b.importItem n u ty = .error b) ∧
    (∀ (b : ComponentBuilder) (i : Nat) (nm : String) (k : ExportKind),
        (k = ExportKind.Global ∨ k = ExportKind.Tag) →
        b.alias_core_item i k nm =
          .error (b.addAlias (.coreInstanceExport i k nm)) ∧
        ∀ s, counter (b.addAlias (.coreInstanceExport i k nm)) s = counter b s) ∧
    (∀ (b : ComponentBuilder) (nm u : String) (k : ComponentExportKind) (i : Nat),
        (k = ComponentExportKind.Component ∨ k = ComponentExportKind.Value) →
        b.exportItem nm u k i =
          .error (b.addExport { name := nm, url := u, kind := k, idx := i }) ∧
        ∀ s, counter (b.addExport { name := nm, url := u, kind := k, idx := i }) s =
          counter b s) := by
  refine ⟨?_, ?_, ?_⟩
  · intro b n u ty hi hf
    cases ty with
    | instanceTy i => exact absurd rfl (hi i)
    | funcTy i => exact absurd rfl (hf i)
    | moduleTy i => rfl
    | valueTy t => rfl
    | typeTy t => rfl
    | componentTy i => rfl
  · intro b i nm k hk
    obtain ⟨-, -, -, f1, f2, f3, f4, f5, f6, f7, f8⟩ :=
      addAlias_spec b (.coreInstanceExport i k nm)
    rcases hk with rfl | rfl <;>
      exact ⟨rfl, fun s => by
        cases s <;> simp [counter, f1, f2, f3, f4, f5, f6, f7, f8]⟩
  · intro b nm u k i hk
    obtain ⟨-, -, -, f1, f2, f3, f4, f5, f6, f7, f8⟩ :=
      addExport_spec b { name := nm, url := u, kind := k, idx := i }
    rcases hk with rfl | rfl <;>
      exact ⟨rfl, fun s => by
        cases s <;> simp [counter, f1, f2, f3, f4, f5, f6, f7, f8]⟩

theorem C1_unsupported_kind_abort_witness :
    defaultBuilder.importItem "x" "" (ComponentTypeRef.moduleTy 0) =
      .error defaultBuilder ∧
    defaultBuilder.alias_core_item 0 ExportKind.Global "g" =
      .error (defaultBuilder.addAlias (.coreInstanceExport 0 .Global "g")) ∧
    counter (defaultBuilder.addAlias (.coreInstanceExport 0 .Global "g")) Space.funcs =
      counter defaultBuilder Space.funcs :=
  ⟨C1_unsupported_kind_abort.1 defaultBuilder "x" "" (ComponentTypeRef.moduleTy 0)
      (fun i h => by cases h) (fun i h => by cases h),
   (C1_unsupported_kind_abort.2.1 defaultBuilder 0 "g" ExportKind.Global (Or.inl rfl)).1,
   (C1_unsupported_kind_abort.2.1 defaultBuilder 0 "g" ExportKind.Global (Or.inl rfl)).2
     Space.funcs⟩

/-- C2: for every index space, the n-th registration touching that space
returns index n−1 and leaves the counter at n (first conjunct, with
n−1 = `countTouch s T` for the trace `T` of the earlier calls); and no
counter ever decreases along any run (second conjunct). -/
theorem C2_index_monotonicity :
    (∀ T b o b' n s, runOps defaultBuilder T = some b →
        stepOp b o = some (b', some n) → touchSpace o = some s →
        n = countTouch s T ∧ counter b' s = countTouch s T + 1) ∧
    (∀ T b b' s, runOps b T = some b' → counter b s ≤ counter b' s) := by
  constructor
  · intro T b o b' n s hrun hstep hs
    have hb := runOps_counter T defaultBuilder b hrun s
    rw [counter_default, Nat.zero_add] at hb
    obtain ⟨hcnt, hret⟩ := stepOp_effect b o b' (some n) hstep
    obtain ⟨s', hs', hn⟩ := hret n rfl
    rw [hs] at hs'
    obtain rfl : s = s' := by injection hs'
    have hc := hcnt s
    rw [hs, if_pos rfl] at hc
    exact ⟨hn.trans hb, by rw [hc, hb]⟩
  · intro T b b' s hrun
    rw [runOps_counter T b b' hrun s]
    exact Nat.le_add_right _ _

theorem C2_index_monotonicity_witness :
    ((0 : Nat) = countTouch Space.funcs [] ∧
      counter { defaultBuilder with
                  last_section := .imports [{ name := "a", url := "",
                                              ty := ComponentTypeRef.funcTy 0 }],
                  funcs := 1 } Space.funcs = countTouch Space.funcs [] + 1) ∧
    counter defaultBuilder Space.types ≤
      counter { defaultBuilder with
                  last_section := .types [.definedTy], types := 1 } Space.types :=
  ⟨C2_index_monotonicity.1 [] defaultBuilder (.importItem "a" "" (.funcTy 0))
      { defaultBuilder with
          last_section := .imports [{ name := "a", url := "",
                                      ty := ComponentTypeRef.funcTy 0 }],
          funcs := 1 } 0 Space.funcs rfl rfl rfl,
   C2_index_monotonicity.2 [.defined_type] defaultBuilder
      { defaultBuilder with last_section := .types [.definedTy], types := 1 }
      Space.types rfl⟩

/-- C3: K ≥ 2 consecutive registrations of the same batchable kind, with
no other registration, sub-module, or flush in between (`batchKind o =
some κ` for all of them), produce exactly one sealed section holding all
K entries in call order. First conjunct: a run beginning at a kind
transition (or fresh slot) seals the previous slot once and yields one
section with exactly the K entries; second conjunct: a run continuing an
already-open same-kind slot adds nothing to the output and the single
sealed section ends with the K entries in call order. -/
theorem C3_batch_coalescing :
    (∀ (b : ComponentBuilder) (ops : List Op) (κ : SectionKind),
        2 ≤ ops.length → (∀ o ∈ ops, batchKind o = some κ) →
        slotKind b.last_section ≠ some κ →
        ∃ b' s, runOps b ops = some b' ∧
          b'.component = b.component ++ sealList b.last_section ∧
          sealList b'.last_section = [s] ∧
          sectionKind s = some κ ∧
          sectionEntries s = ops.filterMap entryOf ∧
          (ops.filterMap entryOf).length = ops.length ∧
          b'.flush.component = b.component ++ sealList b.last_section ++ [s]) ∧
    (∀ (b : ComponentBuilder) (ops : List Op) (κ : SectionKind),
        2 ≤ ops.length → (∀ o ∈ ops, batchKind o = some κ) →
        slotKind b.last_section = some κ →
        ∃ b' s, runOps b ops = some b' ∧
          b'.component = b.component ∧
          sealList b'.last_section = [s] ∧
          sectionKind s = some κ ∧
          sectionEntries s = slotEntries b.last_section ++ ops.filterMap entryOf) := by
  constructor
  · intro b ops κ hlen hops hslot
    cases ops with
    | nil => simp at hlen
    | cons o rest =>
      have hko := hops o (by simp)
      obtain ⟨e, he⟩ := entryOf_of_batchKind o κ hko
      obtain ⟨b1, r, hstep, hcomp, hk1, hent⟩ := stepOp_batch b o κ e hko he
      rw [if_neg hslot] at hcomp hent
      rw [List.nil_append] at hent
      obtain ⟨b', hrun, hc, hk, hen⟩ :=
        runOps_batch_same rest b1 κ hk1 (fun o ho => hops o (List.mem_cons_of_mem _ ho))
      obtain ⟨s, hseal, hsk, hse⟩ := sealList_of_slotKind _ κ hk
      have hentries : sectionEntries s = (o :: rest).filterMap entryOf := by
        rw [hse, hen, hent]
        simp [List.filterMap_cons, he]
      refine ⟨b', s, ?_, ?_, hseal, hsk, hentries, ?_, ?_⟩
      · simp [runOps, hstep, hrun]
      · rw [hc, hcomp]
      · exact length_filterMap_of_isSome entryOf (o :: rest) (fun o ho => by
          obtain ⟨e', he'⟩ := entryOf_of_batchKind o κ (hops o ho)
          simp [he'])
      · rw [flush_eq, hseal, hc, hcomp]
  · intro b ops κ hlen hops hslot
    obtain ⟨b', hrun, hc, hk, hen⟩ := runOps_batch_same ops b κ hslot hops
    obtain ⟨s, hseal, hsk, hse⟩ := sealList_of_slotKind _ κ hk
    exact ⟨b', s, hrun, hc, hseal, hsk, by rw [hse, hen]⟩

theorem C3_batch_coalescing_witness :
    ∃ b' s,
      runOps defaultBuilder
        [.importItem "a" "" (.funcTy 0), .importItem "b" "" (.funcTy 0)] = some b' ∧
      b'.component = defaultBuilder.component ++ sealList defaultBuilder.last_section ∧
      sealList b'.last_section = [s] ∧
      sectionKind s = some SectionKind.imports ∧
      sectionEntries s =
        List.filterMap entryOf
          [.importItem "a" "" (.funcTy 0), .importItem "b" "" (.funcTy 0)] ∧
      (List.filterMap entryOf
          [.importItem "a" "" (.funcTy 0), .importItem "b" "" (.funcTy 0)]).length =
        (([.importItem "a" "" (.funcTy 0), .importItem "b" "" (.funcTy 0)] :
            List Op)).length ∧
      b'.flush.component = defaultBuilder.component ++
        sealList defaultBuilder.last_section ++ [s] :=
  C3_batch_coalescing.1 defaultBuilder
    [.importItem "a" "" (.funcTy 0), .importItem "b" "" (.funcTy 0)]
    SectionKind.imports (by decide) (by decide) (by decide)

/-- C4: one registration of a different batchable kind between two
same-kind registrations yields two sealed sections of the original kind
sandwiching the other kind's section — never one merged section. -/
theorem C4_kind_transition_split (b : ComponentBuilder) (o1 o2 o3 : Op)
    (κ κ' : SectionKind) (e1 e2 e3 : Entry)
    (h1 : batchKind o1 = some κ) (h2 : batchKind o2 = some κ')
    (h3 : batchKind o3 = some κ) (hne : κ' ≠ κ) (hslot : b.last_section = .none)
    (he1 : entryOf o1 = some e1) (he2 : entryOf o2 = some e2)
    (he3 : entryOf o3 = some e3) :
    ∃ b' s1 s2 s3, runOps b [o1, o2, o3] = some b' ∧
      b'.flush.component = b.component ++ [s1, s2, s3] ∧
      sectionKind s1 = some κ ∧ sectionEntries s1 = [e1] ∧
      sectionKind s2 = some κ' ∧ sectionEntries s2 = [e2] ∧
      sectionKind s3 = some κ ∧ sectionEntries s3 = [e3] := by
  obtain ⟨b1, r1, hstep1, hcomp1, hk1, hent1⟩ := stepOp_batch b o1 κ e1 h1 he1
  have hfalse1 : slotKind b.last_section ≠ some κ := by rw [hslot]; simp [slotKind]
  rw [if_neg hfalse1] at hcomp1 hent1
  simp only [hslot, sealList, List.append_nil, List.nil_append] at hcomp1 hent1
  obtain ⟨b2, r2, hstep2, hcomp2, hk2, hent2⟩ := stepOp_batch b1 o2 κ' e2 h2 he2
  have hne12 : slotKind b1.last_section ≠ some κ' := by
    rw [hk1]; exact fun hcon => hne (Option.some.inj hcon).symm
  rw [if_neg hne12] at hcomp2 hent2
  rw [List.nil_append] at hent2
  obtain ⟨s1, hseal1, hsk1, hse1⟩ := sealList_of_slotKind _ κ hk1
  obtain ⟨b3, r3, hstep3, hcomp3, hk3, hent3⟩ := stepOp_batch b2 o3 κ e3 h3 he3
  have hne23 : slotKind b2.last_section ≠ some κ := by
    rw [hk2]; exact fun hcon => hne (Option.some.inj hcon)
  rw [if_neg hne23] at hcomp3 hent3
  rw [List.nil_append] at hent3
  obtain ⟨s2, hseal2, hsk2, hse2⟩ := sealList_of_slotKind _ κ' hk2
  obtain ⟨s3, hseal3, hsk3, hse3⟩ := sealList_of_slotKind _ κ hk3
  refine ⟨b3, s1, s2, s3, ?_, ?_, hsk1, ?_, hsk2, ?_, hsk3, ?_⟩
  · simp [runOps, hstep1, hstep2, hstep3]
  · rw [flush_eq, hseal3, hcomp3, hseal2, hcomp2, hseal1, hcomp1]
    simp
  · rw [hse1, hent1]
  · rw [hse2, hent2]
  · rw [hse3, hent3]

theorem C4_kind_transition_split_witness :
    ∃ b' s1 s2 s3,
      runOps defaultBuilder
        [.importItem "a" "" (.funcTy 0), .exportItem "e" "" .Func 0,
         .importItem "b" "" (.funcTy 0)] = some b' ∧
      b'.flush.component = defaultBuilder.component ++ [s1, s2, s3] ∧
      sectionKind s1 = some SectionKind.imports ∧
      sectionEntries s1 =
        [.importEntry { name := "a", url := "", ty := ComponentTypeRef.funcTy 0 }] ∧
      sectionKind s2 = some SectionKind.exports ∧
      sectionEntries s2 =
        [.exportEntry { name := "e", url := "", kind := .Func, idx := 0 }] ∧
      sectionKind s3 = some SectionKind.imports ∧
      sectionEntries s3 =
        [.importEntry { name := "b", url := "", ty := ComponentTypeRef.funcTy 0 }] :=
  C4_kind_transition_split defaultBuilder
    (.importItem "a" "" (.funcTy 0)) (.exportItem "e" "" .Func 0)
    (.importItem "b" "" (.funcTy 0)) SectionKind.imports SectionKind.exports
    _ _ _ rfl rfl rfl (by decide) rfl rfl rfl rfl

/-- C5: a sub-module registration always seals any open section and then
writes the sub-module as its own standalone section (first conjunct); M ≥
2 consecutive sub-module registrations yield M separate sections, one per
registration, never merged (second conjunct). -/
theorem C5_submodule_isolation :
    (∀ b o sec, moduleSectionOf o = some sec →
        ∃ b' n, stepOp b o = some (b', some n) ∧
          b'.component = b.component ++ sealList b.last_section ++ [sec] ∧
          b'.last_section = .none) ∧
    (∀ b ops, 2 ≤ ops.length → (∀ o ∈ ops, (moduleSectionOf o).isSome) →
        ∃ b', runOps b ops = some b' ∧
          b'.component = b.component ++ sealList b.last_section ++
            ops.filterMap moduleSectionOf ∧
          b'.last_section = .none ∧
          (ops.filterMap moduleSectionOf).length = ops.length) := by
  constructor
  · exact fun b o sec hm => stepOp_module b o sec hm
  · intro b ops hlen hall
    obtain ⟨b', h1, h2, h3⟩ := runOps_modules ops b hall (by
      intro hcon; rw [hcon] at hlen; simp at hlen)
    exact ⟨b', h1, h2, h3, length_filterMap_of_isSome moduleSectionOf ops hall⟩

theorem C5_submodule_isolation_witness :
    (∃ b' n, stepOp defaultBuilder (.core_module [7]) = some (b', some n) ∧
      b'.component = defaultBuilder.component ++
        sealList defaultBuilder.last_section ++ [Section.module [7]] ∧
      b'.last_section = .none) ∧
    (∃ b', runOps defaultBuilder [.core_module [7], .core_module_raw [8]] = some b' ∧
      b'.component = defaultBuilder.component ++
        sealList defaultBuilder.last_section ++
        List.filterMap moduleSectionOf [.core_module [7], .core_module_raw [8]] ∧
      b'.last_section = .none ∧
      (List.filterMap moduleSectionOf
          [.core_module [7], .core_module_raw [8]]).length =
        (([.core_module [7], .core_module_raw [8]] : List Op)).length) :=
  ⟨C5_submodule_isolation.1 defaultBuilder (.core_module [7]) (Section.module [7]) rfl,
   C5_submodule_isolation.2 defaultBuilder [.core_module [7], .core_module_raw [8]]
     (by decide) (by decide)⟩

/-- C6: `finish` performs a final flush and returns the completed output:
the output always ends with the seal of the open slot (first conjunct),
so a section that is open and unflushed when `finish` is called still
appears, fully serialized, in the result (second conjunct). -/
theorem C6_finish_flushes :
    (∀ b : ComponentBuilder, b.finish = b.component ++ sealList b.last_section) ∧
    (∀ b : ComponentBuilder, b.last_section ≠ .none →
        ∃ s, sealList b.last_section = [s] ∧ b.finish = b.component ++ [s]) := by
  constructor
  · intro b
    rw [ComponentBuilder.finish, flush_eq]
  · intro b hne
    obtain ⟨s, hs⟩ := sealList_of_ne_none b.last_section hne
    exact ⟨s, hs, by rw [ComponentBuilder.finish, flush_eq, hs]⟩

theorem C6_finish_flushes_witness :
    ComponentBuilder.finish { defaultBuilder with last_section := .types [.definedTy] } =
      ({ defaultBuilder with last_section := .types [.definedTy] }).component ++
        sealList ({ defaultBuilder with
                      last_section := .types [.definedTy] }).last_section ∧
    ∃ s, sealList ({ defaultBuilder with
                       last_section := .types [.definedTy] }).last_section = [s] ∧
      ComponentBuilder.finish { defaultBuilder with last_section := .types [.definedTy] } =
        ({ defaultBuilder with last_section := .types [.definedTy] }).component ++ [s] :=
  ⟨C6_finish_flushes.1 { defaultBuilder with last_section := .types [.definedTy] },
   C6_finish_flushes.2 { defaultBuilder with last_section := .types [.definedTy] }
     (by decide)⟩

/-- C7: the final output is a pure function of the call trace — running
the same trace twice from a fresh builder yields identical output. -/
theorem C7_determinism (T : List Op) (out1 out2 : Option (List Section))
    (h1 : execTrace T = out1) (h2 : execTrace T = out2) : out1 = out2 := by
  rw [← h1, ← h2]

theorem C7_determinism_witness :
    (some [] : Option (List Section)) = (some [] : Option (List Section)) :=
  C7_determinism [] (some []) (some []) rfl rfl

/-- C8: every supported registration advances exactly one counter — the
one `touchSpace` assigns it, which transcribes the spec's mapping table —
and leaves the other seven unchanged. -/
theorem C8_single_counter_frame (b : ComponentBuilder) (o : Op)
    (b' : ComponentBuilder) (n : Nat) (h : stepOp b o = some (b', some n)) :
    ∃ s, touchSpace o = some s ∧ counter b' s = counter b s + 1 ∧
      ∀ t, t ≠ s → counter b' t = counter b t := by
  obtain ⟨hcnt, hret⟩ := stepOp_effect b o b' (some n) h
  obtain ⟨s, hs, -⟩ := hret n rfl
  refine ⟨s, hs, ?_, ?_⟩
  · have hc := hcnt s
    rw [hs, if_pos rfl] at hc
    exact hc
  · intro t ht
    have hc := hcnt t
    rw [hs, if_neg (fun hcon => ht (Option.some.inj hcon).symm)] at hc
    rw [hc, Nat.add_zero]

theorem C8_single_counter_frame_witness :
    ∃ s, touchSpace (Op.lower_func 0 []) = some s ∧
      counter { defaultBuilder with
                  last_section := .canonicalFunctions [.lower 0 []],
                  core_funcs := 1 } s = counter defaultBuilder s + 1 ∧
      ∀ t, t ≠ s →
        counter { defaultBuilder with
                    last_section := .canonicalFunctions [.lower 0 []],
                    core_funcs := 1 } t = counter defaultBuilder t :=
  C8_single_counter_frame defaultBuilder (Op.lower_func 0 [])
    { defaultBuilder with
        last_section := .canonicalFunctions [.lower 0 []], core_funcs := 1 } 0 rfl

/-- C9: `flush` never modifies any counter; with no open section it is a
complete no-op on the whole builder state; and it is idempotent. -/
theorem C9_flush_frame :
    (∀ (b : ComponentBuilder) (s : Space), counter b.flush s = counter b s) ∧
    (∀ b : ComponentBuilder, b.last_section = .none → b.flush = b) ∧
    (∀ b : ComponentBuilder, b.flush.flush = b.flush) := by
  refine ⟨counter_flush, ?_, ?_⟩
  · intro b h
    cases b
    subst h
    rfl
  · intro b
    rw [flush_eq b, flush_eq]
    simp [sealList]

theorem C9_flush_frame_witness :
    counter defaultBuilder.flush Space.funcs = counter defaultBuilder Space.funcs ∧
    defaultBuilder.flush = defaultBuilder ∧
    ComponentBuilder.flush
        (ComponentBuilder.flush
          { defaultBuilder with last_section := .types [.definedTy] }) =
      ComponentBuilder.flush { defaultBuilder with last_section := .types [.definedTy] } :=
  ⟨C9_flush_frame.1 defaultBuilder Space.funcs,
   C9_flush_frame.2.1 defaultBuilder rfl,
   C9_flush_frame.2.2 { defaultBuilder with last_section := .types [.definedTy] }⟩

/-- C10: after any sub-module registration no section slot is open; hence
two same-kind batchable registrations separated only by a sub-module
registration produce two separate sections of that kind, one on each side
of the sub-module's section. -/
theorem C10_submodule_closes_slot :
    (∀ (b : ComponentBuilder) (o : Op) (b' : ComponentBuilder) (r : Option Nat),
        (moduleSectionOf o).isSome → stepOp b o = some (b', r) →
        b'.last_section = .none) ∧
    (∀ (b : ComponentBuilder) (o1 om o3 : Op) (κ : SectionKind) (e1 e3 : Entry),
        batchKind o1 = some κ → (moduleSectionOf om).isSome → batchKind o3 = some κ →
        b.last_section = .none → entryOf o1 = some e1 → entryOf o3 = some e3 →
        ∃ b' s1 sm s3, runOps b [o1, om, o3] = some b' ∧
          moduleSectionOf om = some sm ∧
          b'.flush.component = b.component ++ [s1, sm, s3] ∧
          sectionKind s1 = some κ ∧ sectionEntries s1 = [e1] ∧
          sectionKind s3 = some κ ∧ sectionEntries s3 = [e3]) := by
  constructor
  · intro b o b' r hm hstep
    obtain ⟨sec, hsec⟩ := Option.isSome_iff_exists.mp hm
    obtain ⟨b'', n, hstep', -, hnone⟩ := stepOp_module b o sec hsec
    rw [hstep'] at hstep
    obtain ⟨hb, -⟩ := Prod.mk.injEq .. ▸ (Option.some.inj hstep)
    rw [← hb]
    exact hnone
  · intro b o1 om o3 κ e1 e3 h1 hm h3 hslot he1 he3
    obtain ⟨b1, r1, hstep1, hcomp1, hk1, hent1⟩ := stepOp_batch b o1 κ e1 h1 he1
    have hfalse1 : slotKind b.last_section ≠ some κ := by rw [hslot]; simp [slotKind]
    rw [if_neg hfalse1] at hcomp1 hent1
    simp only [hslot, sealList, List.append_nil, List.nil_append] at hcomp1 hent1
    obtain ⟨sm, hsm⟩ := Option.isSome_iff_exists.mp hm
    obtain ⟨b2, n2, hstep2, hcomp2, hnone2⟩ := stepOp_module b1 om sm hsm
    obtain ⟨s1, hseal1, hsk1, hse1⟩ := sealList_of_slotKind _ κ hk1
    obtain ⟨b3, r3, hstep3, hcomp3, hk3, hent3⟩ := stepOp_batch b2 o3 κ e3 h3 he3
    have hfalse3 : slotKind b2.last_section ≠ some κ := by
      rw [hnone2]; simp [slotKind]
    rw [if_neg hfalse3] at hcomp3 hent3
    simp only [hnone2, sealList, List.append_nil, List.nil_append] at hcomp3 hent3
    obtain ⟨s3, hseal3, hsk3, hse3⟩ := sealList_of_slotKind _ κ hk3
    refine ⟨b3, s1, sm, s3, ?_, hsm, ?_, hsk1, ?_, hsk3, ?_⟩
    · simp [runOps, hstep1, hstep2, hstep3]
    · rw [flush_eq, hseal3, hcomp3, hcomp2, hseal1, hcomp1]
      simp
    · rw [hse1, hent1]
    · rw [hse3, hent3]

theorem C10_submodule_closes_slot_witness :
    ∃ b' s1 sm s3,
      runOps defaultBuilder
        [.importItem "a" "" (.funcTy 0), .core_module [7],
         .importItem "b" "" (.funcTy 0)] = some b' ∧
      moduleSectionOf (.core_module [7]) = some sm ∧
      b'.flush.component = defaultBuilder.component ++ [s1, sm, s3] ∧
      sectionKind s1 = some SectionKind.imports ∧
      sectionEntries s1 =
        [.importEntry { name := "a", url := "", ty := ComponentTypeRef.funcTy 0 }] ∧
      sectionKind s3 = some SectionKind.imports ∧
      sectionEntries s3 =
        [.importEntry { name := "b", url := "", ty := ComponentTypeRef.funcTy 0 }] :=
  C10_submodule_closes_slot.2 defaultBuilder
    (.importItem "a" "" (.funcTy 0)) (.core_module [7])
    (.importItem "b" "" (.funcTy 0)) SectionKind.imports _ _
    rfl rfl rfl rfl rfl rfl

end WasmTools
